import Mathlib

/-!
Shallow embedding of `routeutil` (src/dist/routeutil.js), a minimal
client-side hash router, together with theorems settling the spec claims.

Modelling conventions:
* JS strings are sequences of characters; the JS `String.prototype.startsWith`
  test is embedded structurally as a prefix check on the character list.
* The built-in regular-expression engine is an external collaborator
  (out of scope per the spec); a compiled `RegExp` is modelled as an object
  carrying its `source` text, its list of named capture group names, an
  object identity, and an abstract match function returning the named-capture
  groups on success.
* Handlers are side-effecting callbacks whose effects are not modelled;
  a resolution is embedded as a pure function returning which handlers are
  invoked and with which `ResolvedRoute` argument.
-/

namespace Routeutil

/-- The characters replaced by `escapeRegex`'s character class
`[.*+?^$\x7b\x7d()|[\]\\]` in the source. -/
def regexSpecials : List Char :=
  ['.', '*', '+', '?', '^', '$', '{', '}', '(', ')', '|', '[', ']', '\\']

/-- Image of one character under the `replace(/[...]/g, "\\$&")` call:
a special character is preceded by a backslash, others are kept. -/
def escChar (c : Char) : List Char :=
  if regexSpecials.contains c then ['\\', c] else [c]

/-- `escapeRegex` from the source: escape every regex-significant character. -/
def escapeRegex (val : String) : String :=
  String.mk (val.data.flatMap escChar)

/-- JS `String.prototype.startsWith`: the pattern is a prefix of the string
(embedded structurally over the character sequences). -/
def jsStartsWith (s pre : String) : Bool :=
  pre.data.isPrefixOf s.data

/-- An interpolated value passed to the `route` tagged template: either a
literal string or a `RegExp` (of which only the `source` text is consumed). -/
inductive RouteVal where
  | str : String → RouteVal
  | pat : String → RouteVal
  deriving DecidableEq

/-- What the loop body of `route` pushes for one interpolated value:
strings are escaped, `RegExp` sources are inserted verbatim. -/
def valPiece : RouteVal → List String
  | RouteVal.str x => [escapeRegex x]
  | RouteVal.pat src => [src]

/-- The `buf` array assembled by `route`: for each index `i` of `segments`,
push the escaped segment, then the piece for `values[i]` when it exists. -/
def routeBuf : List String → List RouteVal → List String
  | [], _ => []
  | s :: ss, [] => escapeRegex s :: routeBuf ss []
  | s :: ss, v :: vs => escapeRegex s :: (valPiece v ++ routeBuf ss vs)

/-- JS `Array.prototype.join("")`: concatenation of the elements. -/
def strJoin (l : List String) : String :=
  l.foldr (fun a b => a ++ b) ""

/-- `route` from the source. Validation reads `buf[0]` (the escaped first
literal segment); we return the text handed to `new RegExp(...)` as the
compiled pattern's source (the engine's own `/`-renormalisation of `.source`
is out of scope per the spec). A tagged-template call always supplies at
least one segment, so `buf` is never empty; `headD ""` covers the
never-taken empty case. -/
def route (segments : List String) (values : List RouteVal) :
    Except String String :=
  let buf := routeBuf segments values
  if jsStartsWith ((buf.headD "")) "#/" then
    Except.ok ("^" ++ strJoin buf ++ "$")
  else
    Except.error ("Routes must start with \"#/\"; route is " ++ strJoin buf)

/-- `param` from the source: the source text of `(?<name>\w+)`. -/
def param (name : String) : String :=
  "(?<" ++ name ++ ">\\w+)"

/-- `true` iff `route` threw (template-literal use surfaces the thrown
`Error`). -/
def routeThrows (segments : List String) (values : List RouteVal) : Bool :=
  match route segments values with
  | Except.error _ => true
  | Except.ok _ => false

/-- Modelled from the spec: "concatenate literal segments with values in
alternating order; literal segments and literal string values are escaped
...; raw sub-pattern values are inserted verbatim". Interleaving of two
already-rendered lists, starting with a segment. -/
def interleave : List String → List String → List String
  | [], _ => []
  | s :: ss, [] => s :: interleave ss []
  | s :: ss, v :: vs => s :: v :: interleave ss vs

/-- Modelled from the spec: the assembled (unanchored) text of a route. -/
def specAssemble (segments : List String) (values : List RouteVal) : String :=
  strJoin (interleave (segments.map escapeRegex)
    (values.map (fun v => strJoin (valPiece v))))

/-- The result of JS `url.match(regexp)` when it is not `null`: only the
`groups` property is consumed by the router. `groups` is `undefined`
(`none`) when the pattern has no named capture group; otherwise it maps
each named capture group of the pattern to its captured substring. -/
structure MatchResult where
  groups : Option (List (String × String))

/-- A compiled `RegExp` object. The engine is an external collaborator, so
matching is an abstract function; `oid` is the JS object identity (two
`RegExp` objects with equal sources are distinct `Map` keys), `source` the
pattern text, `groupNames` the named capture groups appearing in the
pattern, and `execMatch url` the result of `url.match(this)`. -/
structure JsRegExp where
  oid : Nat
  source : String
  groupNames : List String
  execMatch : String → Option MatchResult

/-- A `RouteDef`: a literal fragment string or a `RegExp`. -/
inductive RouteDef where
  | str : String → RouteDef
  | regex : JsRegExp → RouteDef

/-- JS `Map` key equality on route definitions (SameValueZero): strings by
value, `RegExp` objects by identity. -/
def keyEq : RouteDef → RouteDef → Bool
  | RouteDef.str a, RouteDef.str b => a == b
  | RouteDef.regex a, RouteDef.regex b => a.oid == b.oid
  | _, _ => false

/-- One resolution's `resolved` value: the `url` fragment, the `params`
mapping, and the matched route definition (absent when none matched). -/
structure ResolvedRoute where
  url : String
  params : List (String × String)
  route : Option RouteDef

/-- Router instance state. `handlers` is the insertion-ordered registry
(JS `Map`); `aborted` is whether `#controller.abort()` has run; `listening`
is whether the `popstate` listener is currently registered. -/
structure Router (H : Type) where
  handlers : List (RouteDef × H)
  fallbackHandler : Option H
  afterEachHandler : Option H
  startAt : Option String
  aborted : Bool
  listening : Bool

/-- `new Router(opts)`. -/
def Router.mk0 (H : Type) (startAt : Option String) : Router H :=
  ⟨[], none, none, startAt, false, false⟩

/-- JS `Map.set` on the ordered registry: replace the value at an existing
key in place (keeping the original key object and its position), else
append a fresh entry. -/
def mapSet {H : Type} : List (RouteDef × H) → RouteDef → H → List (RouteDef × H)
  | [], k, v => [(k, v)]
  | (k', v') :: rest, k, v =>
    if keyEq k' k then (k', v) :: rest else (k', v') :: mapSet rest k v

/-- JS `Map.delete`: remove the entry at the key if present. -/
def mapDelete {H : Type} : List (RouteDef × H) → RouteDef → List (RouteDef × H)
  | [], _ => []
  | (k', v') :: rest, k =>
    if keyEq k' k then rest else (k', v') :: mapDelete rest k

/-- `on` for a single route definition (the array form is `forEach` of
this). -/
def Router.on {H : Type} (r : Router H) (k : RouteDef) (h : H) : Router H :=
  { r with handlers := mapSet r.handlers k h }

/-- `off` for a single route definition. -/
def Router.off {H : Type} (r : Router H) (k : RouteDef) : Router H :=
  { r with handlers := mapDelete r.handlers k }

/-- `fallback`. -/
def Router.fallback {H : Type} (r : Router H) (h : H) : Router H :=
  { r with fallbackHandler := some h }

/-- `afterEach`. -/
def Router.afterEach {H : Type} (r : Router H) (h : H) : Router H :=
  { r with afterEachHandler := some h }

/-- Whether one registry key matches the fragment: a string key iff the
fragment equals it, a `RegExp` key iff `url.match(k)` is not `null`. -/
def entryMatches (url : String) : RouteDef → Bool
  | RouteDef.str s => url == s
  | RouteDef.regex rx => (rx.execMatch url).isSome

/-- The scanning loop of `#exec`: walk the registry in insertion order and
stop at the first entry whose key matches, returning the winning key, its
handler, and — for a `RegExp` key — the `params` object `{...match.groups}`
(a string key leaves `params` undefined). -/
def execFind {H : Type} (url : String) :
    List (RouteDef × H) → Option (RouteDef × H × Option (List (String × String)))
  | [] => none
  | (k, v) :: rest =>
    match k with
    | RouteDef.str s =>
      if url == s then some (RouteDef.str s, v, none) else execFind url rest
    | RouteDef.regex rx =>
      match rx.execMatch url with
      | some m => some (RouteDef.regex rx, v, some (m.groups.getD []))
      | none => execFind url rest

/-- The observable outcome of one `#exec` run: the `resolved` value it
builds, the `(handler ?? fallback)?.(resolved)` call, and the
`afterEach?.(resolved)` call (`none` = no call). -/
structure ExecResult (H : Type) where
  resolved : ResolvedRoute
  mainCall : Option (H × ResolvedRoute)
  afterCall : Option (H × ResolvedRoute)

/-- `#exec(url)` from the source. It writes no instance field; its effects
are the at-most-two handler invocations recorded in the result. -/
def exec {H : Type} (r : Router H) (url : String) : ExecResult H :=
  match execFind url r.handlers with
  | some (k, v, p) =>
    let resolved : ResolvedRoute := ⟨url, p.getD [], some k⟩
    ⟨resolved, some (v, resolved), r.afterEachHandler.map (fun h => (h, resolved))⟩
  | none =>
    let resolved : ResolvedRoute := ⟨url, [], none⟩
    ⟨resolved, r.fallbackHandler.map (fun h => (h, resolved)),
      r.afterEachHandler.map (fun h => (h, resolved))⟩

/-- `#exec` as an instance method in state-passing form: the method reads
the registry and the handler slots and assigns no field, so the post-state
is the receiver unchanged. -/
def Router.execM {H : Type} (r : Router H) (url : String) :
    Router H × ExecResult H :=
  (r, exec r url)

/-- JS truthiness of `this.#startAt` (`undefined` and `""` are falsy). -/
def startAtTruthy : Option String → Bool
  | none => false
  | some s => !(s == "")

/-- Outcome of `connect()`: the updated router, the fragment after the
call (the host's normalisation of `location.hash` writes is out of scope),
and the synchronous `#exec` run, when one happened. -/
structure ConnectOutcome (H : Type) where
  router : Router H
  hash : String
  syncExec : Option (ExecResult H)

/-- `connect()` from the source, given the current `location.hash`.
`addEventListener` with an already-aborted signal registers nothing (DOM
spec), so the listener becomes active only when the controller has not
been aborted. Then: if `#startAt` is truthy and the fragment empty, write
the fragment (no synchronous resolution); else run `#exec()` once. -/
def Router.connect {H : Type} (r : Router H) (hash : String) :
    ConnectOutcome H :=
  let r' : Router H := { r with listening := if r.aborted then r.listening else true }
  if startAtTruthy r.startAt && (hash == "") then
    ⟨r', r.startAt.getD "", none⟩
  else
    ⟨r', hash, some (exec r hash)⟩

/-- `disconnect()`: abort the controller, which removes the `popstate`
listener; there is no way to un-abort. -/
def Router.disconnect {H : Type} (r : Router H) : Router H :=
  { r with aborted := true, listening := false }

/-- Delivery of one navigation signal (`popstate`) by the host while the
fragment is `hash`: the router's listener runs `#exec()` iff it is
registered. -/
def deliverPopstate {H : Type} (r : Router H) (hash : String) :
    Option (ExecResult H) :=
  if r.listening then some (exec r hash) else none

/-- The router's public mutating operations, for stating temporal
properties over arbitrary later call sequences. `connectOp h` is `connect`
called while the fragment is `h`. -/
inductive RouterOp (H : Type) where
  | onOp : RouteDef → H → RouterOp H
  | offOp : RouteDef → RouterOp H
  | fallbackOp : H → RouterOp H
  | afterEachOp : H → RouterOp H
  | connectOp : String → RouterOp H
  | disconnectOp : RouterOp H

/-- Apply one operation to the router state. -/
def applyOp {H : Type} (r : Router H) : RouterOp H → Router H
  | RouterOp.onOp k h => r.on k h
  | RouterOp.offOp k => r.off k
  | RouterOp.fallbackOp h => r.fallback h
  | RouterOp.afterEachOp h => r.afterEach h
  | RouterOp.connectOp hash => (r.connect hash).router
  | RouterOp.disconnectOp => r.disconnect

/-- Apply a sequence of operations in order. -/
def applyOps {H : Type} (r : Router H) (ops : List (RouterOp H)) : Router H :=
  ops.foldl applyOp r

/-- A concrete `RegExp` object for evaluation: `/^#\/foo\/(?<id>\w+)$/`,
whose engine behaviour is instantiated at the fragment `"#/foo/bar"`
(captures `id = "bar"`) and rejects every other fragment. -/
def regexIdFoo : JsRegExp :=
  ⟨0, "^#\\/foo\\/(?<id>\\w+)$", ["id"],
    fun u => if u == "#/foo/bar" then some ⟨some [("id", "bar")]⟩ else none⟩

/-! ## Helper lemmas -/

theorem data_append (s t : String) : (s ++ t).data = s.data ++ t.data := by
  cases s
  cases t
  rfl

theorem strJoin_nil : strJoin [] = "" := rfl

theorem strJoin_cons (a : String) (l : List String) :
    strJoin (a :: l) = a ++ strJoin l := rfl

theorem string_append_assoc (a b c : String) :
    a ++ b ++ c = a ++ (b ++ c) := by
  apply String.toList_inj.mp
  show (a ++ b ++ c).data = (a ++ (b ++ c)).data
  simp [data_append]

theorem strJoin_append (a b : List String) :
    strJoin (a ++ b) = strJoin a ++ strJoin b := by
  induction a with
  | nil =>
    apply String.toList_inj.mp
    show (strJoin b).data = ("" ++ strJoin b).data
    rw [data_append]
    rfl
  | cons x xs ih =>
    simp only [List.cons_append, strJoin_cons, ih, string_append_assoc]

theorem escChar_of_special {c : Char} (h : regexSpecials.contains c = true) :
    escChar c = ['\\', c] := by
  unfold escChar
  rw [h]
  simp

theorem escChar_of_not_special {c : Char} (h : regexSpecials.contains c = false) :
    escChar c = [c] := by
  unfold escChar
  rw [h]
  simp

theorem contains_false_of_ne {c : Char} (hc : ¬regexSpecials.contains c = true) :
    regexSpecials.contains c = false := by
  cases h : regexSpecials.contains c with
  | false => rfl
  | true => exact absurd h hc

theorem slash_isPrefixOf_flatMap (l : List Char) :
    List.isPrefixOf ['/'] (l.flatMap escChar) = List.isPrefixOf ['/'] l := by
  cases l with
  | nil => rfl
  | cons c l' =>
    by_cases hc : regexSpecials.contains c = true
    · have hne : ('/' == c) = false := by
        cases hcc : ('/' == c) with
        | false => rfl
        | true =>
          have : c = '/' := (beq_iff_eq.mp hcc).symm
          rw [this] at hc
          exact absurd hc (by decide)
      have hb : ('/' == '\\') = false := by decide
      rw [List.flatMap_cons, escChar_of_special hc]
      simp only [List.cons_append, List.isPrefixOf_cons₂, hne, hb,
        Bool.false_and]
    · rw [List.flatMap_cons, escChar_of_not_special (contains_false_of_ne hc)]
      simp only [List.cons_append, List.nil_append, List.isPrefixOf_cons₂,
        List.isPrefixOf_nil_left, Bool.and_true]

theorem hashSlash_isPrefixOf_flatMap (l : List Char) :
    List.isPrefixOf ['#', '/'] (l.flatMap escChar) = List.isPrefixOf ['#', '/'] l := by
  cases l with
  | nil => rfl
  | cons c l' =>
    by_cases hc : regexSpecials.contains c = true
    · have hne : ('#' == c) = false := by
        cases hcc : ('#' == c) with
        | false => rfl
        | true =>
          have : c = '#' := (beq_iff_eq.mp hcc).symm
          rw [this] at hc
          exact absurd hc (by decide)
      have hb : ('#' == '\\') = false := by decide
      rw [List.flatMap_cons, escChar_of_special hc]
      simp only [List.cons_append, List.isPrefixOf_cons₂, hne, hb,
        Bool.false_and]
    · rw [List.flatMap_cons, escChar_of_not_special (contains_false_of_ne hc)]
      simp only [List.cons_append, List.nil_append, List.isPrefixOf_cons₂,
        slash_isPrefixOf_flatMap]

/-- Escaping never makes or unmakes a `"#/"` prefix: `#` and `/` are not in
the escaped character class, and escaping only inserts backslashes. -/
theorem escapeRegex_preserves_hashSlash (s : String) :
    jsStartsWith (escapeRegex s) "#/" = jsStartsWith s "#/" := by
  have h2 : ("#/").data = ['#', '/'] := rfl
  show List.isPrefixOf ("#/").data (escapeRegex s).data
      = List.isPrefixOf ("#/").data s.data
  rw [h2]
  exact hashSlash_isPrefixOf_flatMap s.data

theorem routeThrows_eq (segments : List String) (values : List RouteVal) :
    routeThrows segments values
      = !(jsStartsWith ((routeBuf segments values).headD "") "#/") := by
  unfold routeThrows route
  rw [List.headD_eq_head?_getD]
  cases h : jsStartsWith ((routeBuf segments values).head?.getD "") "#/" <;>
    simp [h]

theorem routeBuf_headD (s : String) (rest : List String) (values : List RouteVal) :
    (routeBuf (s :: rest) values).headD "" = escapeRegex s := by
  cases values <;> rfl

theorem routeBuf_join (segments : List String) (values : List RouteVal) :
    strJoin (routeBuf segments values) = specAssemble segments values := by
  induction segments generalizing values with
  | nil => cases values <;> rfl
  | cons s ss ih =>
    cases values with
    | nil =>
      show strJoin (escapeRegex s :: routeBuf ss [])
          = strJoin (interleave (escapeRegex s :: ss.map escapeRegex) [])
      rw [strJoin_cons]
      show escapeRegex s ++ strJoin (routeBuf ss [])
          = strJoin (escapeRegex s :: interleave (ss.map escapeRegex) [])
      rw [strJoin_cons, ih []]
      rfl
    | cons v vs =>
      show strJoin (escapeRegex s :: (valPiece v ++ routeBuf ss vs))
          = strJoin (interleave (escapeRegex s :: ss.map escapeRegex)
              (strJoin (valPiece v) :: vs.map (fun v => strJoin (valPiece v))))
      rw [strJoin_cons, strJoin_append, ih vs]
      show escapeRegex s ++ (strJoin (valPiece v) ++ specAssemble ss vs)
          = strJoin (escapeRegex s :: strJoin (valPiece v)
              :: interleave (ss.map escapeRegex) (vs.map (fun v => strJoin (valPiece v))))
      rw [strJoin_cons, strJoin_cons]
      rfl

theorem execFind_eq_none_iff {H : Type} (url : String) (l : List (RouteDef × H)) :
    execFind url l = none ↔ ∀ e ∈ l, entryMatches url e.1 = false := by
  induction l with
  | nil => simp [execFind]
  | cons e rest ih =>
    obtain ⟨k, v⟩ := e
    cases k with
    | str s =>
      cases h : (url == s) with
      | true => simp [execFind, h, entryMatches]
      | false => simp [execFind, h, entryMatches, ih]
    | regex rx =>
      cases hm : rx.execMatch url with
      | some m => simp [execFind, hm, entryMatches]
      | none => simp [execFind, hm, entryMatches, ih]

theorem execFind_append_of_nomatch {H : Type} (url : String)
    (l1 l2 : List (RouteDef × H))
    (h : ∀ e ∈ l1, entryMatches url e.1 = false) :
    execFind url (l1 ++ l2) = execFind url l2 := by
  induction l1 with
  | nil => rfl
  | cons e rest ih =>
    obtain ⟨k, v⟩ := e
    have hk := h (k, v) (List.mem_cons_self _ _)
    have hrest : ∀ e ∈ rest, entryMatches url e.1 = false :=
      fun e he => h e (List.mem_cons_of_mem _ he)
    cases k with
    | str s =>
      have hs : (url == s) = false := hk
      simp [execFind, hs, ih hrest]
    | regex rx =>
      have hm : rx.execMatch url = none := by
        cases hmm : rx.execMatch url with
        | none => rfl
        | some m => exact absurd hk (by simp [entryMatches, hmm])
      simp [execFind, hm, ih hrest]

theorem execFind_cons_of_match {H : Type} (url : String) (k : RouteDef) (v : H)
    (h : entryMatches url k = true) :
    ∃ p, ∀ (l : List (RouteDef × H)),
      execFind url ((k, v) :: l) = some (k, v, p) := by
  cases k with
  | str s =>
    refine ⟨none, fun l => ?_⟩
    have hs : (url == s) = true := h
    simp [execFind, hs]
  | regex rx =>
    cases hm : rx.execMatch url with
    | none => exact absurd h (by simp [entryMatches, hm])
    | some m =>
      refine ⟨some (m.groups.getD []), fun l => ?_⟩
      simp [execFind, hm]

theorem exec_congr_find {H : Type} (r1 r2 : Router H) (url : String)
    (hf : execFind url r1.handlers = execFind url r2.handlers)
    (hfb : r1.fallbackHandler = r2.fallbackHandler)
    (hae : r1.afterEachHandler = r2.afterEachHandler) :
    exec r1 url = exec r2 url := by
  unfold exec
  rw [hf, hfb, hae]

theorem exec_of_find_some {H : Type} (r : Router H) (url : String)
    (k : RouteDef) (v : H) (p : Option (List (String × String)))
    (hf : execFind url r.handlers = some (k, v, p)) :
    (exec r url).mainCall = some (v, ⟨url, p.getD [], some k⟩) := by
  unfold exec
  rw [hf]

theorem dead_op {H : Type} (r : Router H) (op : RouterOp H)
    (h1 : r.aborted = true) (h2 : r.listening = false) :
    (applyOp r op).aborted = true ∧ (applyOp r op).listening = false := by
  cases op with
  | onOp k h => exact ⟨h1, h2⟩
  | offOp k => exact ⟨h1, h2⟩
  | fallbackOp h => exact ⟨h1, h2⟩
  | afterEachOp h => exact ⟨h1, h2⟩
  | disconnectOp => exact ⟨rfl, rfl⟩
  | connectOp hash =>
    constructor
    · show ((r.connect hash).router).aborted = true
      unfold Router.connect
      cases hc : (startAtTruthy r.startAt && (hash == "")) <;> simp [h1]
    · show ((r.connect hash).router).listening = false
      unfold Router.connect
      cases hc : (startAtTruthy r.startAt && (hash == "")) <;> simp [h1, h2]

theorem dead_ops {H : Type} (r : Router H) (ops : List (RouterOp H))
    (h1 : r.aborted = true) (h2 : r.listening = false) :
    (applyOps r ops).aborted = true ∧ (applyOps r ops).listening = false := by
  induction ops generalizing r with
  | nil => exact ⟨h1, h2⟩
  | cons op rest ih =>
    have hstep := dead_op r op h1 h2
    exact ih (applyOp r op) hstep.1 hstep.2

/-! ## Claim theorems -/

/-- C3, counterexample: at the call `route` with segments `["", ""]` and the
single interpolated string `"#/foo"` (JS: ``route`${"#/foo"}` ``), the
assembled text is `"#/foo"`, which does begin with `"#/"`, yet `route`
raises — so "raises if and only if the assembled text does not begin with
`#/`" is false: the code inspects only `buf[0]`, the escaped first literal
segment, which here is empty. -/
theorem route_throws_despite_assembled_prefix :
    routeThrows ["", ""] [RouteVal.str "#/foo"] = true ∧
      jsStartsWith (strJoin (routeBuf ["", ""] [RouteVal.str "#/foo"])) "#/"
        = true ∧
      strJoin (routeBuf ["", ""] [RouteVal.str "#/foo"]) = "#/foo" := by
  refine ⟨by decide, by decide, rfl⟩

/-- C3, amended: `route` raises the validation error if and only if the
first literal segment does not begin with `"#/"` (the check reads `buf[0]`,
and escaping neither creates nor destroys a `"#/"` prefix); the whole
assembled text is not consulted. Stated for the template-literal calling
convention, under which there is always at least one literal segment. -/
theorem route_throws_iff_first_segment (s : String) (rest : List String)
    (values : List RouteVal) :
    routeThrows (s :: rest) values = !(jsStartsWith s "#/") := by
  rw [routeThrows_eq, routeBuf_headD, escapeRegex_preserves_hashSlash]

/-- C4: whenever `route` succeeds, the returned pattern text is the
alternating concatenation of the escaped literal segments and the rendered
interpolated values (strings escaped, `RegExp` sources verbatim), anchored
with `^` and `$` at the two ends. `specAssemble` is built from the spec's
words; `route` is the source's algorithm. -/
theorem route_ok_source_assembled (segments : List String)
    (values : List RouteVal) (out : String)
    (h : route segments values = Except.ok out) :
    out = "^" ++ specAssemble segments values ++ "$" := by
  have h2 : (if jsStartsWith ((routeBuf segments values).headD "") "#/"
      then Except.ok ("^" ++ strJoin (routeBuf segments values) ++ "$")
      else Except.error ("Routes must start with \"#/\"; route is "
        ++ strJoin (routeBuf segments values))) = Except.ok out := h
  split at h2
  · injection h2 with h3
    rw [← h3, routeBuf_join]
  · exact absurd h2 (by simp)

/-- C4, witness: the spec's own example — segments `["#/foo/", "/baz"]`
with the string value `"bar"` between them. -/
theorem route_ok_source_assembled_witness :
    route ["#/foo/", "/baz"] [RouteVal.str "bar"]
        = Except.ok "^#/foo/bar/baz$" ∧
      "^#/foo/bar/baz$"
        = "^" ++ specAssemble ["#/foo/", "/baz"] [RouteVal.str "bar"] ++ "$" :=
  ⟨rfl, route_ok_source_assembled _ _ _ rfl⟩

/-- C1: with the registry split as `l1 ++ (k, v) :: l2` where nothing in
`l1` matches the fragment and `k` matches it, resolution invokes `v` (the
first-registered matching entry's handler) with `route = k`, and the whole
outcome is independent of the later entries `l2` — they are never
consulted. -/
theorem first_match_wins {H : Type} (r : Router H) (url : String)
    (l1 l2 : List (RouteDef × H)) (k : RouteDef) (v : H)
    (hh : r.handlers = l1 ++ (k, v) :: l2)
    (h1 : ∀ e ∈ l1, entryMatches url e.1 = false)
    (h2 : entryMatches url k = true) :
    (∃ rr, (exec r url).mainCall = some (v, rr) ∧ rr.route = some k) ∧
      ∀ l2', exec { r with handlers := l1 ++ (k, v) :: l2' } url
        = exec r url := by
  obtain ⟨p, hp⟩ := execFind_cons_of_match url k v h2
  have hfind : ∀ (l' : List (RouteDef × H)),
      execFind url (l1 ++ (k, v) :: l') = some (k, v, p) := by
    intro l'
    rw [execFind_append_of_nomatch url l1 _ h1, hp l']
  constructor
  · refine ⟨⟨url, p.getD [], some k⟩, ?_, rfl⟩
    have : execFind url r.handlers = some (k, v, p) := by rw [hh, hfind l2]
    exact exec_of_find_some r url k v p this
  · intro l2'
    apply exec_congr_find
    · show execFind url (l1 ++ (k, v) :: l2') = execFind url r.handlers
      rw [hh, hfind l2, hfind l2']
    · rfl
    · rfl

/-- C1, witness: two string entries match `"#/foo"`; the first-registered
one (handler `1`) wins over the later duplicate (handler `2`), and the
outcome does not depend on what follows the winner. -/
theorem first_match_wins_witness :
    (∃ rr, (exec (⟨[(RouteDef.str "#/bar", 0), (RouteDef.str "#/foo", 1),
          (RouteDef.str "#/foo", 2)], none, none, none, false, false⟩ :
            Router Nat) "#/foo").mainCall = some (1, rr) ∧
        rr.route = some (RouteDef.str "#/foo")) ∧
      ∀ l2', exec { (⟨[(RouteDef.str "#/bar", 0), (RouteDef.str "#/foo", 1),
          (RouteDef.str "#/foo", 2)], none, none, none, false, false⟩ :
            Router Nat) with
          handlers := [(RouteDef.str "#/bar", 0)]
            ++ (RouteDef.str "#/foo", 1) :: l2' } "#/foo"
        = exec (⟨[(RouteDef.str "#/bar", 0), (RouteDef.str "#/foo", 1),
          (RouteDef.str "#/foo", 2)], none, none, none, false, false⟩ :
            Router Nat) "#/foo" :=
  first_match_wins _ "#/foo" [(RouteDef.str "#/bar", 0)]
    [(RouteDef.str "#/foo", 2)] (RouteDef.str "#/foo") 1 rfl
    (by decide) (by decide)

/-- C2: when the first matching entry is a pattern and the engine reports
the match `m`, the handler receives `params` equal to exactly the named
capture groups of the pattern (given the engine contract that the keys of
`m.groups` are the pattern's named capture group names) — no other keys;
and whenever no registry entry matches the fragment, the built
`ResolvedRoute` carries an empty `params` map. -/
theorem params_exactly_named_captures {H : Type} (r : Router H) (url : String)
    (l1 l2 : List (RouteDef × H)) (rx : JsRegExp) (v : H) (m : MatchResult)
    (hh : r.handlers = l1 ++ (RouteDef.regex rx, v) :: l2)
    (h1 : ∀ e ∈ l1, entryMatches url e.1 = false)
    (hm : rx.execMatch url = some m)
    (hg : (m.groups.getD []).map Prod.fst = rx.groupNames) :
    (∃ rr, (exec r url).mainCall = some (v, rr) ∧
        rr.params = m.groups.getD [] ∧
        rr.params.map Prod.fst = rx.groupNames) ∧
      ∀ (r2 : Router H), (∀ e ∈ r2.handlers, entryMatches url e.1 = false) →
        (exec r2 url).resolved.params = [] := by
  constructor
  · have hfind : execFind url r.handlers
        = some (RouteDef.regex rx, v, some (m.groups.getD [])) := by
      rw [hh, execFind_append_of_nomatch url l1 _ h1]
      simp [execFind, hm]
    refine ⟨⟨url, m.groups.getD [], some (RouteDef.regex rx)⟩, ?_, rfl, hg⟩
    exact exec_of_find_some r url (RouteDef.regex rx) v
      (some (m.groups.getD [])) hfind
  · intro r2 h2
    have hnone : execFind url r2.handlers = none :=
      (execFind_eq_none_iff url _).mpr h2
    unfold exec
    rw [hnone]

/-- C2, witness: the pattern `/^#\/foo\/(?<id>\w+)$/` matching `"#/foo/bar"`
yields `params = [("id", "bar")]`, exactly the names of the pattern's
capture groups; a no-match resolution yields empty params. -/
theorem params_exactly_named_captures_witness :
    (∃ rr, (exec (⟨[(RouteDef.regex regexIdFoo, 7)], none, none, none,
          false, false⟩ : Router Nat) "#/foo/bar").mainCall
        = some (7, rr) ∧
        rr.params = [("id", "bar")] ∧
        rr.params.map Prod.fst = regexIdFoo.groupNames) ∧
      ∀ (r2 : Router Nat),
        (∀ e ∈ r2.handlers, entryMatches "#/foo/bar" e.1 = false) →
        (exec r2 "#/foo/bar").resolved.params = [] :=
  params_exactly_named_captures _ "#/foo/bar" [] [] regexIdFoo 7
    ⟨some [("id", "bar")]⟩ rfl (by simp) rfl rfl

/-- C5: whenever a post-navigation (`afterEach`) handler is set, every
resolution invokes it exactly once — match or no match — and its argument
is the very `resolved` value built by that resolution, the same one passed
to the route handler or fallback when one was invoked. -/
theorem afterEach_once_same_resolved {H : Type} (r : Router H) (url : String)
    (ha : H) (hae : r.afterEachHandler = some ha) :
    (exec r url).afterCall = some (ha, (exec r url).resolved) ∧
      ∀ p ∈ (exec r url).mainCall, p.2 = (exec r url).resolved := by
  unfold exec
  cases hf : execFind url r.handlers with
  | some kvp =>
    obtain ⟨k, v, p⟩ := kvp
    constructor
    · simp [hae]
    · intro q hq
      simp at hq
      rw [← hq]
  | none =>
    constructor
    · simp [hae]
    · intro q hq
      cases hfb : r.fallbackHandler with
      | none => rw [hfb] at hq; simp at hq
      | some f =>
        rw [hfb] at hq
        simp at hq
        rw [← hq]

/-- C5, witness: a resolution with no matching route (empty registry) and
an `afterEach` handler `9`: the handler fires once with the built
`ResolvedRoute`. -/
theorem afterEach_once_same_resolved_witness :
    (⟨[], none, some 9, none, false, false⟩ : Router Nat).afterEachHandler
        = some 9 ∧
      ((exec (⟨[], none, some 9, none, false, false⟩ : Router Nat)
          "#/x").afterCall
        = some (9, (exec (⟨[], none, some 9, none, false, false⟩ :
            Router Nat) "#/x").resolved) ∧
      ∀ p ∈ (exec (⟨[], none, some 9, none, false, false⟩ :
          Router Nat) "#/x").mainCall,
        p.2 = (exec (⟨[], none, some 9, none, false, false⟩ :
          Router Nat) "#/x").resolved) :=
  ⟨rfl, afterEach_once_same_resolved _ "#/x" 9 rfl⟩

/-- C6: if some registry entry matches, the winning entry's handler is
invoked and the fallback plays no role (the same call happens with the
fallback slot cleared); if no entry matches, the main invocation is exactly
the fallback handler — applied to a `ResolvedRoute` with no `route` and
empty `params` — when one is set, and nothing when absent. Resolution is a
total function: no case raises. -/
theorem match_main_else_fallback {H : Type} (r : Router H) (url : String) :
    ((∃ e ∈ r.handlers, entryMatches url e.1 = true) →
        ∃ v rr, (exec r url).mainCall = some (v, rr) ∧
          (exec { r with fallbackHandler := none } url).mainCall
            = some (v, rr)) ∧
      ((∀ e ∈ r.handlers, entryMatches url e.1 = false) →
        (exec r url).mainCall
            = r.fallbackHandler.map (fun f => (f, ⟨url, [], none⟩)) ∧
          (exec r url).resolved = ⟨url, [], none⟩) := by
  constructor
  · intro hex
    cases hf : execFind url r.handlers with
    | none =>
      obtain ⟨e, he, hme⟩ := hex
      have := (execFind_eq_none_iff url r.handlers).mp hf e he
      rw [this] at hme
      exact absurd hme (by simp)
    | some kvp =>
      obtain ⟨k, v, p⟩ := kvp
      refine ⟨v, ⟨url, p.getD [], some k⟩, exec_of_find_some r url k v p hf, ?_⟩
      have hf2 : execFind url
          ({ r with fallbackHandler := none } : Router H).handlers
          = some (k, v, p) := hf
      exact exec_of_find_some _ url k v p hf2
  · intro hall
    have hnone : execFind url r.handlers = none :=
      (execFind_eq_none_iff url _).mpr hall
    unfold exec
    rw [hnone]
    exact ⟨rfl, rfl⟩

/-- C6, witness: a router with one non-matching entry and fallback `3`:
the fallback is invoked with an absent route and empty params; a router
whose single entry matches invokes that handler with or without a
fallback configured. -/
theorem match_main_else_fallback_witness :
    ((∃ e ∈ (⟨[(RouteDef.str "#/foo", 1)], some 3, none, none, false,
            false⟩ : Router Nat).handlers,
          entryMatches "#/foo" e.1 = true) →
        ∃ v rr, (exec (⟨[(RouteDef.str "#/foo", 1)], some 3, none, none,
            false, false⟩ : Router Nat) "#/foo").mainCall = some (v, rr) ∧
          (exec { (⟨[(RouteDef.str "#/foo", 1)], some 3, none, none, false,
              false⟩ : Router Nat) with fallbackHandler := none }
            "#/foo").mainCall = some (v, rr)) ∧
      ((∀ e ∈ (⟨[(RouteDef.str "#/foo", 1)], some 3, none, none, false,
            false⟩ : Router Nat).handlers,
          entryMatches "#/foo" e.1 = false) →
        (exec (⟨[(RouteDef.str "#/foo", 1)], some 3, none, none, false,
            false⟩ : Router Nat) "#/foo").mainCall
            = (some 3).map (fun f => (f, ⟨"#/foo", [], none⟩)) ∧
          (exec (⟨[(RouteDef.str "#/foo", 1)], some 3, none, none, false,
            false⟩ : Router Nat) "#/foo").resolved = ⟨"#/foo", [], none⟩) :=
  match_main_else_fallback
    (⟨[(RouteDef.str "#/foo", 1)], some 3, none, none, false, false⟩ :
      Router Nat) "#/foo"

/-- C10: a resolution leaves the router's own state unchanged — the
registry (contents and order), the fallback slot, the post-navigation slot
and the configured initial route are those of the receiver. In the source,
`#exec` assigns no instance field, which the embedding reflects: handlers
are inert values here, so the claim's proviso that they do not call the
router's mutating methods holds by construction. -/
theorem exec_preserves_state {H : Type} (r : Router H) (url : String) :
    (r.execM url).1.handlers = r.handlers ∧
      (r.execM url).1.fallbackHandler = r.fallbackHandler ∧
      (r.execM url).1.afterEachHandler = r.afterEachHandler ∧
      (r.execM url).1.startAt = r.startAt :=
  ⟨rfl, rfl, rfl, rfl⟩

/-- The router part of a `connect` outcome on a non-aborted router: the
listener is registered. -/
theorem connect_router_eq {H : Type} (r : Router H) (hash : String)
    (hab : r.aborted = false) :
    (r.connect hash).router = { r with listening := true } := by
  unfold Router.connect
  cases hc : (startAtTruthy r.startAt && (hash == "")) <;> simp [hab]

/-- C7: on activation of a (not previously deactivated) router — if an
initial route is configured (`startAt` set to a non-empty string, i.e.
truthy) and the current fragment is empty, `connect` writes the initial
route to the fragment and performs no synchronous resolution; the listener
is now registered, so the navigation signal produced by that fragment
change performs exactly one resolution. In every other case `connect`
performs exactly one immediate synchronous resolution and leaves the
fragment untouched. -/
theorem connect_initial_route {H : Type} (r : Router H) (hash : String)
    (hab : r.aborted = false) :
    ((startAtTruthy r.startAt = true ∧ hash = "") →
        (r.connect hash).hash = r.startAt.getD "" ∧
        (r.connect hash).syncExec = none ∧
        (r.connect hash).router.listening = true ∧
        ∀ h', deliverPopstate (r.connect hash).router h'
          = some (exec r h')) ∧
      ((startAtTruthy r.startAt = false ∨ hash ≠ "") →
        (r.connect hash).syncExec = some (exec r hash) ∧
        (r.connect hash).hash = hash ∧
        (r.connect hash).router.listening = true) := by
  have hl : (r.connect hash).router.listening = true := by
    rw [connect_router_eq r hash hab]
  constructor
  · rintro ⟨h1, h2⟩
    subst h2
    have hcond : (startAtTruthy r.startAt && ("" == "")) = true := by
      rw [h1]
      rfl
    refine ⟨?_, ?_, hl, ?_⟩
    · unfold Router.connect
      rw [hcond]
      rfl
    · unfold Router.connect
      rw [hcond]
      rfl
    · intro h'
      unfold deliverPopstate
      rw [hl, connect_router_eq r "" hab]
      rfl
  · intro h
    have hcond : (startAtTruthy r.startAt && (hash == "")) = false := by
      cases h with
      | inl h1 => rw [h1]; rfl
      | inr h2 =>
        have : (hash == "") = false := beq_eq_false_iff_ne.mpr h2
        rw [this, Bool.and_false]
    refine ⟨?_, ?_, hl⟩
    · unfold Router.connect
      rw [hcond]
      rfl
    · unfold Router.connect
      rw [hcond]
      rfl

/-- C7, witness: a fresh router configured with `startAt = "#/home"` and an
empty fragment: `connect` writes `"#/home"` without resolving
synchronously, and the registered listener resolves on the resulting
signal; the same router activated with fragment `"#/x"` resolves once
synchronously and keeps the fragment. -/
theorem connect_initial_route_witness :
    ((⟨[], none, none, some "#/home", false, false⟩ :
        Router Nat).aborted = false) ∧
    (((startAtTruthy (some "#/home") = true ∧ "" = "") →
        ((⟨[], none, none, some "#/home", false, false⟩ :
            Router Nat).connect "").hash = (some "#/home").getD "" ∧
        ((⟨[], none, none, some "#/home", false, false⟩ :
            Router Nat).connect "").syncExec = none ∧
        ((⟨[], none, none, some "#/home", false, false⟩ :
            Router Nat).connect "").router.listening = true ∧
        ∀ h', deliverPopstate ((⟨[], none, none, some "#/home", false,
            false⟩ : Router Nat).connect "").router h'
          = some (exec (⟨[], none, none, some "#/home", false, false⟩ :
              Router Nat) h')) ∧
      ((startAtTruthy (some "#/home") = false ∨ "" ≠ "") →
        ((⟨[], none, none, some "#/home", false, false⟩ :
            Router Nat).connect "").syncExec
          = some (exec (⟨[], none, none, some "#/home", false, false⟩ :
              Router Nat) "") ∧
        ((⟨[], none, none, some "#/home", false, false⟩ :
            Router Nat).connect "").hash = "" ∧
        ((⟨[], none, none, some "#/home", false, false⟩ :
            Router Nat).connect "").router.listening = true)) :=
  ⟨rfl, connect_initial_route (⟨[], none, none, some "#/home", false,
    false⟩ : Router Nat) "" rfl⟩

/-- C8: once `disconnect` has run on a (connected) router, the listener is
gone and stays gone through any later sequence of operations on the
instance — including further `connect` calls — so no navigation signal, at
any later fragment value, ever triggers a resolution again. -/
theorem disconnect_permanent {H : Type} (r : Router H)
    (_hconn : r.listening = true) (ops : List (RouterOp H)) (hash' : String) :
    (applyOps r.disconnect ops).listening = false ∧
      deliverPopstate (applyOps r.disconnect ops) hash' = none := by
  have hd := dead_ops r.disconnect ops rfl rfl
  refine ⟨hd.2, ?_⟩
  unfold deliverPopstate
  rw [hd.2]
  rfl

/-- C8, witness: a connected router, disconnected, then asked to `connect`
again: the later navigation signal at `"#/y"` resolves nothing. -/
theorem disconnect_permanent_witness :
    ((⟨[], none, none, none, false, true⟩ : Router Nat).listening = true) ∧
      ((applyOps (Router.disconnect
            (⟨[], none, none, none, false, true⟩ : Router Nat))
          [RouterOp.connectOp "#/x"]).listening = false ∧
        deliverPopstate (applyOps (Router.disconnect
            (⟨[], none, none, none, false, true⟩ : Router Nat))
          [RouterOp.connectOp "#/x"]) "#/y" = none) :=
  ⟨rfl, disconnect_permanent _ rfl [RouterOp.connectOp "#/x"] "#/y"⟩

/-- C9: `connect` after `disconnect` still performs the activation-time
behaviour once — it writes the initial route when one is configured and
the fragment is empty, else resolves once synchronously — but the
`popstate` subscription is registered against the already-aborted signal,
so observation never resumes: the router is not listening and later
navigation signals resolve nothing. -/
theorem connect_after_disconnect {H : Type} (r : Router H) (hash : String) :
    ((startAtTruthy r.startAt = true ∧ hash = "") →
        (r.disconnect.connect hash).hash = r.startAt.getD "" ∧
        (r.disconnect.connect hash).syncExec = none) ∧
      ((startAtTruthy r.startAt = false ∨ hash ≠ "") →
        (r.disconnect.connect hash).syncExec = some (exec r hash) ∧
        (r.disconnect.connect hash).hash = hash) ∧
      (r.disconnect.connect hash).router.listening = false ∧
      ∀ h', deliverPopstate (r.disconnect.connect hash).router h' = none := by
  have hl : (r.disconnect.connect hash).router.listening = false := by
    unfold Router.connect
    cases hc : (startAtTruthy r.disconnect.startAt && (hash == "")) <;> rfl
  refine ⟨?_, ?_, hl, ?_⟩
  · rintro ⟨h1, h2⟩
    subst h2
    have hcond : (startAtTruthy r.disconnect.startAt && ("" == "")) = true := by
      rw [show startAtTruthy r.disconnect.startAt
          = startAtTruthy r.startAt from rfl, h1]
      rfl
    constructor
    · unfold Router.connect
      rw [hcond]
      rfl
    · unfold Router.connect
      rw [hcond]
      rfl
  · intro h
    have hcond : (startAtTruthy r.disconnect.startAt && (hash == ""))
        = false := by
      cases h with
      | inl h1 =>
        rw [show startAtTruthy r.disconnect.startAt
            = startAtTruthy r.startAt from rfl, h1]
        rfl
      | inr h2 =>
        have : (hash == "") = false := beq_eq_false_iff_ne.mpr h2
        rw [this, Bool.and_false]
    constructor
    · unfold Router.connect
      rw [hcond]
      rfl
    · unfold Router.connect
      rw [hcond]
      rfl
  · intro h'
    unfold deliverPopstate
    rw [hl]
    rfl

/-- C9, witness: a router with `startAt = "#/home"`, disconnected, then
connected with an empty fragment: the fragment is written once, but the
router is not listening and signals resolve nothing. -/
theorem connect_after_disconnect_witness :
    ((startAtTruthy (some "#/home") = true ∧ "" = "") →
        (((⟨[], none, none, some "#/home", false, true⟩ :
            Router Nat).disconnect.connect "").hash
          = (some "#/home").getD "" ∧
        ((⟨[], none, none, some "#/home", false, true⟩ :
            Router Nat).disconnect.connect "").syncExec = none)) ∧
      ((startAtTruthy (some "#/home") = false ∨ "" ≠ "") →
        (((⟨[], none, none, some "#/home", false, true⟩ :
            Router Nat).disconnect.connect "").syncExec
          = some (exec (⟨[], none, none, some "#/home", false, true⟩ :
              Router Nat) "") ∧
        ((⟨[], none, none, some "#/home", false, true⟩ :
            Router Nat).disconnect.connect "").hash = "")) ∧
      ((⟨[], none, none, some "#/home", false, true⟩ :
          Router Nat).disconnect.connect "").router.listening = false ∧
      ∀ h', deliverPopstate ((⟨[], none, none, some "#/home", false, true⟩ :
          Router Nat).disconnect.connect "").router h' = none :=
  connect_after_disconnect
    (⟨[], none, none, some "#/home", false, true⟩ : Router Nat) ""

end Routeutil
